import Mathlib

/-!
# Verification of the git-activity-monitor session tracking engine

Shallow embedding of the session tracking engine of
`src/activity_monitor/enhanced_tracker.py` (the legacy copy in
`src/activity_monitor/time_tracker.py` implements the same per-repository
transition logic without the `changedFiles` set).

Modelling conventions:
* Python `float` timestamps and durations are modelled as exact rationals `ℚ`.
* The per-repository entry `active_sessions[repo]`, which the source only
  ever sets to `(None, None)` or to a pair of floats, is modelled as
  `Option (ℚ × ℚ)`.
* The source tests presence of an active span in two different ways:
  `on_modified` uses `start is None`, while `_check_idle_sessions` and
  `_handle_new_commit` use the truthiness test `if start:`, which is false
  both for `None` and for the float `0.0`.  Both tests are modelled exactly
  (`truthyStart` below).
* The repository inspector (git subprocess calls) is an external
  collaborator: its results (observed commit hash, commit message, diff-stat
  output) are inputs to the transition functions; a failed call is `none`.
* Each repository's state is independent of the others in the source (all
  dictionaries are keyed by repository path and an iteration step touches
  only the current key), so the engine is modelled per repository.
-/

namespace ActivityMonitor

/-- Result triple of `EnhancedActivityTracker.get_git_stats`
(`lines_added`, `lines_deleted`, `files_changed`).  Python integers are
modelled as `Int` (the parser accepts signed tokens). -/
structure GitStats where
  linesAdded : Int
  linesDeleted : Int
  filesChanged : Int
deriving DecidableEq

/-- `EnhancedActivityTracker.calculate_productivity_score`:
`0.0` when the duration is zero, otherwise the sum of three saturating
components. -/
def calculate_productivity_score (duration files lines : ℚ) : ℚ :=
  if duration = 0 then 0
  else min (duration / 3600) 1 * 40 + min (files * 5) 30 + min (lines / 10) 30

/-- The per-repository state of `EnhancedActivityTracker`:
`active_sessions[repo]`, `accumulated_time.get(repo, 0)`,
`file_changes.get(repo, set())` (a set, modelled as a deduplicated list) and
`last_commits.get(repo)`. -/
structure RepoState where
  active : Option (ℚ × ℚ)
  accumulated : ℚ
  changedFiles : List String
  lastCommit : Option String
deriving DecidableEq

/-- State of a repository before any event is observed for it. -/
def initRepo : RepoState := { active := none, accumulated := 0, changedFiles := [], lastCommit := none }

/-- Python truthiness of the `start` component of an `active_sessions` entry:
`if start:` is false for `None` and for the float `0.0`. -/
def truthyStart : Option (ℚ × ℚ) → Bool
  | none => false
  | some (s, _) => decide (s ≠ 0)

/-- `EnhancedChangeHandler.on_modified`, success path for one repository
(after the directory/extension/path filters and repository-root resolution,
which decide whether the event reaches this code at all): add the path to the
`file_changes` set, then start the session (`start is None`) or extend it. -/
def on_modified (st : RepoState) (path : String) (now : ℚ) : RepoState :=
  let files := st.changedFiles.insert path
  match st.active with
  | none => { st with changedFiles := files, active := some (now, now) }
  | some (s, _) => { st with changedFiles := files, active := some (s, now) }

/-- `EnhancedActivityTracker._check_idle_sessions`, for one repository:
`if start and (now - last > IDLE_THRESHOLD)` fold the span `last - start`
into the accumulator and clear the entry to `(None, None)`. -/
def check_idle_sessions (st : RepoState) (now thresh : ℚ) : RepoState :=
  match st.active with
  | some (s, l) =>
    if s ≠ 0 ∧ now - l > thresh then
      { st with accumulated := st.accumulated + (l - s), active := none }
    else st
  | none => st

/-- The span-folding prologue of `EnhancedActivityTracker._handle_new_commit`:
`start, last = active_sessions.get(...)`; `if start:` add `last - start` to
the accumulator and clear the entry. -/
def foldActive (st : RepoState) : RepoState :=
  match st.active with
  | some (s, l) =>
    if s ≠ 0 then
      { st with accumulated := st.accumulated + (l - s), active := none }
    else st
  | none => st

/-- The record saved by `_handle_new_commit` (the `session_data` tuple handed
to `DatabaseManager.save_session`; the repository path/name identify the
repository and are omitted from the per-repository model). -/
structure SessionRecord where
  startTime : ℚ
  endTime : ℚ
  duration : ℚ
  commitHash : String
  commitMessage : String
  filesChanged : Int
  linesAdded : Int
  linesDeleted : Int
  score : ℚ
deriving DecidableEq

/-- `EnhancedActivityTracker._handle_new_commit`: fold the active span
(Python truthiness on `start`), then flush iff the accumulated total is
positive — `files_changed = max(len(file_changes), git stats)`, score, emit,
reset accumulator and file set — and update `last_commits` unconditionally.
The commit message and diff stats are inspector inputs; `now` stands for the
`datetime.now()` calls. -/
def handle_new_commit (st : RepoState) (hash msg : String) (stats : GitStats) (now : ℚ) :
    RepoState × Option SessionRecord :=
  let st1 := foldActive st
  let total := st1.accumulated
  if total > 0 then
    let files : Int := max (st1.changedFiles.length : Int) stats.filesChanged
    let score := calculate_productivity_score total (files : ℚ)
      ((stats.linesAdded + stats.linesDeleted : Int) : ℚ)
    ({ st1 with accumulated := 0, changedFiles := [], lastCommit := some hash },
      some { startTime := now - total, endTime := now, duration := total,
             commitHash := hash, commitMessage := msg, filesChanged := files,
             linesAdded := stats.linesAdded, linesDeleted := stats.linesDeleted,
             score := score })
  else
    ({ st1 with lastCommit := some hash }, none)

/-- `EnhancedActivityTracker._check_commits`, body of the loop for one
repository.  `observed` is the result of `git rev-parse HEAD` (`none` on
`CalledProcessError`, skipping the repository this cycle).  First observation
only records the hash; an unchanged hash does nothing; a changed hash runs
`_handle_new_commit`. -/
def check_commits (st : RepoState) (observed : Option String) (msg : String)
    (stats : GitStats) (now : ℚ) : RepoState × Option SessionRecord :=
  match observed with
  | none => (st, none)
  | some h =>
    match st.lastCommit with
    | none => ({ st with lastCommit := some h }, none)
    | some old => if h = old then (st, none) else handle_new_commit st h msg stats now

/-- One iteration of `_monitor_loop` for one repository: the idle sweep
followed by the commit sweep. -/
def tick (st : RepoState) (now thresh : ℚ) (observed : Option String) (msg : String)
    (stats : GitStats) : RepoState × Option SessionRecord :=
  check_commits (check_idle_sessions st now thresh) observed msg stats now

/-- An event observed by one repository: a successful file-change
notification, or one sweep of the monitor loop (with the inspector's
responses for this repository as inputs). -/
inductive Event where
  | change (path : String) (now : ℚ)
  | sweep (now : ℚ) (observed : Option String) (msg : String) (stats : GitStats)
deriving DecidableEq

/-- The state transition of a single event (records emitted by a sweep go to
the sink and do not affect the state). -/
def step (thresh : ℚ) (st : RepoState) : Event → RepoState
  | .change p now => on_modified st p now
  | .sweep now observed msg stats => (tick st now thresh observed msg stats).1

/-- Run a sequence of events from a state. -/
def run (thresh : ℚ) (st : RepoState) (es : List Event) : RepoState :=
  es.foldl (step thresh) st

/-- The wall-clock time at which an event fires. -/
def eventTime : Event → ℚ
  | .change _ n => n
  | .sweep n _ _ _ => n

/-- `chronB t es`: the events of `es` fire at nondecreasing times, all at or
after `t` (the wall clock of `time.time()` never runs backwards). -/
def chronB : ℚ → List Event → Bool
  | _, [] => true
  | t, e :: es => decide (t ≤ eventTime e) && chronB (eventTime e) es

/-- Running `on_modified` over a list of successful change notifications
(path, timestamp), with no intervening sweep. -/
def runChanges (st : RepoState) (calls : List (String × ℚ)) : RepoState :=
  calls.foldl (fun a c => on_modified a c.1 c.2) st

/-!
## String helpers (Python string methods used by the tracker)
-/

/-- The whitespace set of Python `str.strip` / `str.split` / `\s` (ASCII). -/
def isPySpace (c : Char) : Bool :=
  c == ' ' || c == '\t' || c == '\n' || c == '\r' || c == '\x0b' || c == '\x0c'

/-- Python `str.strip()` (ASCII whitespace). -/
def pyStrip (s : List Char) : List Char :=
  ((s.dropWhile isPySpace).reverse.dropWhile isPySpace).reverse

/-- Python `str.strip(chars)`: remove characters of `cs` from both ends. -/
def pyStripSet (cs : List Char) (s : List Char) : List Char :=
  ((s.dropWhile cs.contains).reverse.dropWhile cs.contains).reverse

/-- Worker for `pyWords` (accumulates the current word reversed). -/
def pyWordsAux : List Char → List Char → List (List Char)
  | [], acc => if acc.isEmpty then [] else [acc.reverse]
  | c :: rest, acc =>
    if isPySpace c then
      if acc.isEmpty then pyWordsAux rest [] else acc.reverse :: pyWordsAux rest []
    else pyWordsAux rest (c :: acc)

/-- Python `str.split()` with no argument: split on runs of whitespace,
dropping empty pieces. -/
def pyWords (s : List Char) : List (List Char) := pyWordsAux s []

/-- ASCII lower-casing of one character (Python `str.lower` on ASCII). -/
def lowerChar (c : Char) : Char :=
  if 'A' ≤ c ∧ c ≤ 'Z' then Char.ofNat (c.toNat + 32) else c

/-- ASCII upper-casing of one character (Python `str.upper` on ASCII). -/
def upperChar (c : Char) : Char :=
  if 'a' ≤ c ∧ c ≤ 'z' then Char.ofNat (c.toNat - 32) else c

/-- `needle` is a prefix of the second list. -/
def leadsWith : List Char → List Char → Bool
  | [], _ => true
  | _ :: _, [] => false
  | a :: as, b :: bs => a == b && leadsWith as bs

/-- Python's `needle in haystack` substring containment. -/
def hasSub (needle : List Char) : List Char → Bool
  | [] => needle.isEmpty
  | c :: t => leadsWith needle (c :: t) || hasSub needle t

/-- Digit-string to number (`none` if empty or non-digits). -/
def parseDigits (cs : List Char) : Option Nat :=
  if cs.isEmpty then none
  else if cs.all Char.isDigit then
    some (cs.foldl (fun n c => 10 * n + (c.toNat - 48)) 0)
  else none

/-- Python `int(token)` on a whitespace-free token: optional sign then
digits, `none` models the caught `ValueError`. -/
def pyInt (cs : List Char) : Option Int :=
  match cs with
  | '-' :: rest => (parseDigits rest).map (fun n => -(n : Int))
  | '+' :: rest => (parseDigits rest).map (fun n => (n : Int))
  | _ => (parseDigits cs).map (fun n => (n : Int))

/-- Python `int(s.split()[0])` with `IndexError`/`ValueError` caught. -/
def firstTokenInt (cs : List Char) : Option Int :=
  match pyWords cs with
  | w :: _ => pyInt w
  | [] => none

/-!
## `EnhancedActivityTracker.get_git_stats`

The subprocess outputs of `git diff --stat` and `git diff --cached --stat`
are inputs: `none` models a failed command (`returncode != 0` or a raised
exception).  The accumulators are shared across both commands in the
source, hence the fold over an accumulator record.
-/

/-- `"file changed" in line or "files changed" in line`. -/
def lineIsSummary (line : List Char) : Bool :=
  hasSub "file changed".data line || hasSub "files changed".data line

/-- Processing of one summary line: add the file count from the first
comma-part (if it mentions `file` and parses), then add insertion/deletion
counts from each part. -/
def procSummaryLine (acc : GitStats) (line : List Char) : GitStats :=
  let parts := line.splitOn ','
  let acc1 :=
    match parts with
    | [] => acc
    | p0 :: _ =>
      if hasSub "file".data p0 then
        match firstTokenInt p0 with
        | some n => { acc with filesChanged := acc.filesChanged + n }
        | none => acc
      else acc
  parts.foldl (fun a part =>
    if hasSub "insertion".data part then
      match firstTokenInt (pyStrip part) with
      | some n => { a with linesAdded := a.linesAdded + n }
      | none => a
    else if hasSub "deletion".data part then
      match firstTokenInt (pyStrip part) with
      | some n => { a with linesDeleted := a.linesDeleted + n }
      | none => a
    else a) acc1

/-- The per-file fallback test: `" | " in line and ("++" in line or "--" in
line or "+-" in line)`. -/
def isFileLine (line : List Char) : Bool :=
  hasSub " | ".data line &&
    (hasSub "++".data line || hasSub "--".data line || hasSub "+-".data line)

/-- Processing of one command's stdout: skipped when empty after stripping;
summary lines are parsed, and individual file lines are counted only when no
summary line was found. -/
def procStatOutput (acc : GitStats) (out : List Char) : GitStats :=
  let stripped := pyStrip out
  if stripped.isEmpty then acc
  else
    let lines := stripped.splitOn '\n'
    let summaryFound := lines.any lineIsSummary
    let acc1 := lines.foldl
      (fun a line => if lineIsSummary line then procSummaryLine a line else a) acc
    if summaryFound then acc1
    else lines.foldl
      (fun a line => if isFileLine line then { a with filesChanged := a.filesChanged + 1 } else a)
      acc1

/-- `EnhancedActivityTracker.get_git_stats`: fold the unstaged then the
staged diff-stat output into zero-initialised accumulators; any failure
contributes nothing. -/
def get_git_stats (unstaged staged : Option String) : GitStats :=
  let acc : GitStats := ⟨0, 0, 0⟩
  let acc1 := match unstaged with | none => acc | some o => procStatOutput acc o.data
  match staged with | none => acc1 | some o => procStatOutput acc1 o.data

/-!
## `extract_task_name`

The function applies five `re.search`/`re.IGNORECASE` patterns in a fixed
order.  The patterns are embedded as ASTs for a backtracking matcher with
Python semantics: leftmost start position, ordered alternation, greedy
quantifiers, numbered capture groups (group `i` of the AST is Python group
`i+1`).  `matchRE` is fuel-indexed for structural recursion; fuel is
consumed once per constructor visited and per `star` iteration, so
`length + 1000` is far more than any match of these patterns can need.
-/

/-- Regular-expression ASTs: character class, concatenation, ordered
alternation, greedy Kleene star and capture group. -/
inductive RE where
  | eps
  | cls (p : Char → Bool)
  | seq (a b : RE)
  | alt (a b : RE)
  | star (a : RE)
  | group (i : Nat) (a : RE)

/-- Captured groups (Python `match.groups()`): `none` is a group that did
not participate in the match. -/
abbrev Caps := List (Option (List Char))

/-- Record the text of capture group `i`. -/
def setCap (caps : Caps) (i : Nat) (v : List Char) : Caps :=
  caps.set i (some v)

/-- Backtracking matcher in continuation-passing style.  Alternation tries
the left branch first; `star` tries one more (non-empty) iteration before
trying the continuation, which is Python's greedy semantics. -/
def matchRE : Nat → RE → List Char → Caps → (List Char → Caps → Option Caps) → Option Caps
  | 0, _, _, _, _ => none
  | _ + 1, .eps, s, caps, k => k s caps
  | _ + 1, .cls _, [], _, _ => none
  | _ + 1, .cls p, c :: s, caps, k => if p c then k s caps else none
  | fuel + 1, .seq a b, s, caps, k =>
      matchRE fuel a s caps (fun s' caps' => matchRE fuel b s' caps' k)
  | fuel + 1, .alt a b, s, caps, k =>
      (matchRE fuel a s caps k).orElse (fun _ => matchRE fuel b s caps k)
  | fuel + 1, .star a, s, caps, k =>
      (matchRE fuel a s caps (fun s' caps' =>
        if s'.length < s.length then matchRE fuel (.star a) s' caps' k else none)).orElse
        (fun _ => k s caps)
  | fuel + 1, .group i a, s, caps, k =>
      matchRE fuel a s caps (fun s' caps' => k s' (setCap caps' i (s.take (s.length - s'.length))))

/-- Match anchored at the start of the string (pattern 5 begins with `^`). -/
def matchAnchored (re : RE) (s : List Char) : Option Caps :=
  matchRE (s.length + 1000) re s [none, none] (fun _ caps => some caps)

/-- `re.search`: try each start position from the left. -/
def searchFrom (re : RE) : List Char → Option Caps
  | [] => matchRE 1000 re [] [none, none] (fun _ caps => some caps)
  | c :: t =>
    match matchRE ((c :: t).length + 1000) re (c :: t) [none, none] (fun _ caps => some caps) with
    | some caps => some caps
    | none => searchFrom re t

/-- A case-insensitive literal character (`re.IGNORECASE`, ASCII). -/
def ichar (c : Char) : RE := .cls (fun x => lowerChar x == lowerChar c)

/-- A case-insensitive literal string. -/
def istr (w : String) : RE := (w.data.map ichar).foldr .seq .eps

/-- A literal character. -/
def rchar (c : Char) : RE := .cls (fun x => x == c)

/-- `a?` (greedy: try `a` before the empty match). -/
def reOpt (a : RE) : RE := .alt a .eps

/-- `a+`. -/
def rePlus (a : RE) : RE := .seq a (.star a)

/-- `.` — any character but a newline (no `re.DOTALL`). -/
def notNl (c : Char) : Bool := c != '\n'

/-- `[^,\n]`. -/
def notCommaNl (c : Char) : Bool := c != ',' && c != '\n'

/-- The common suffix `(?::\s*(.+))?` with capture index `g`. -/
def colonDesc (g : Nat) : RE :=
  reOpt (.seq (rchar ':') (.seq (.star (.cls isPySpace)) (.group g (rePlus (.cls notNl)))))

/-- `([A-Z]+-\d+)(?::\s*(.+))?` — JIRA-style identifiers (`[A-Z]` under
`IGNORECASE` is any ASCII letter). -/
def pat1 : RE :=
  .seq (.group 0 (.seq (rePlus (.cls Char.isAlpha)) (.seq (rchar '-') (rePlus (.cls Char.isDigit)))))
    (colonDesc 1)

/-- `(?:fix(?:es)?|close(?:s)?|resolve(?:s)?)?\s*#(\d+)(?::\s*(.+))?` —
GitHub issue references. -/
def pat2 : RE :=
  .seq (reOpt (.alt (.seq (istr "fix") (reOpt (istr "es")))
        (.alt (.seq (istr "close") (reOpt (istr "s"))) (.seq (istr "resolve") (reOpt (istr "s"))))))
    (.seq (.star (.cls isPySpace))
      (.seq (rchar '#') (.seq (.group 0 (rePlus (.cls Char.isDigit))) (colonDesc 1))))

/-- `\[([^\]]+)\](?::\s*(.+))?` — bracketed tags. -/
def pat3 : RE :=
  .seq (rchar '[')
    (.seq (.group 0 (rePlus (.cls (fun c => c != ']')))) (.seq (rchar ']') (colonDesc 1)))

/-- `(?:feat(?:ure)?|fix|bug|chore|docs?|refactor|style|test):\s*([^,\n]+)` —
conventional-commit prefixes. -/
def pat4 : RE :=
  .seq (.alt (.seq (istr "feat") (reOpt (istr "ure")))
        (.alt (istr "fix") (.alt (istr "bug") (.alt (istr "chore")
          (.alt (.seq (istr "doc") (reOpt (istr "s")))
            (.alt (istr "refactor") (.alt (istr "style") (istr "test"))))))))
    (.seq (rchar ':') (.seq (.star (.cls isPySpace)) (.group 0 (rePlus (.cls notCommaNl)))))

/-- `^((?:Add|Fix|Update|Implement|Create|Remove|Delete|Refactor|Optimize|Improve)[^,\n]*)`
— leading imperative verbs (anchored at the string start). -/
def pat5 : RE :=
  .group 0 (.seq (.alt (istr "Add") (.alt (istr "Fix") (.alt (istr "Update")
      (.alt (istr "Implement") (.alt (istr "Create") (.alt (istr "Remove")
      (.alt (istr "Delete") (.alt (istr "Refactor") (.alt (istr "Optimize") (istr "Improve"))))))))))
    (.star (.cls notCommaNl)))

/-- The ordered pattern list with each pattern's Python group count and
whether it is anchored (`^`). -/
def taskPatterns : List (RE × Nat × Bool) :=
  [(pat1, 2, false), (pat2, 2, false), (pat3, 2, false), (pat4, 1, false), (pat5, 1, true)]

/-- Python truthiness of `match.groups()[i]`: a participating, non-empty
capture. -/
def truthyGroup : Option (List Char) → Bool
  | none => false
  | some s => !s.isEmpty

/-- `str.isupper()` (ASCII): at least one letter and no lowercase letter. -/
def pyIsUpper (w : List Char) : Bool :=
  w.any Char.isAlpha && w.all (fun c => !c.isAlpha || c.isUpper)

/-- Python `str.capitalize()`: first character upper-cased, the rest
lower-cased. -/
def pyCapitalize : List Char → List Char
  | [] => []
  | c :: rest => upperChar c :: rest.map lowerChar

/-- The per-word normalisation of `extract_task_name`: keep multi-letter
acronyms, upper-case single characters, capitalise the rest. -/
def cleanWord (w : List Char) : List Char :=
  if pyIsUpper w ∧ w.length > 1 then w
  else if w.length = 1 then w.map upperChar
  else pyCapitalize w

/-- Worker for `pyTitle` tracking whether the previous character was a
letter. -/
def pyTitleAux : Bool → List Char → List Char
  | _, [] => []
  | prevAlpha, c :: rest =>
    if c.isAlpha then
      (if prevAlpha then lowerChar c else upperChar c) :: pyTitleAux true rest
    else c :: pyTitleAux false rest

/-- Python `str.title()` (ASCII): upper-case a letter after a non-letter,
lower-case the other letters. -/
def pyTitle (s : List Char) : List Char := pyTitleAux false s

/-- The normalisation applied to a matched group: `strip()`, underscores and
hyphens to spaces, per-word cleaning, re-join, truncate to 60 characters. -/
def cleanTask (t : List Char) : List Char :=
  let t1 := pyStrip t
  let t2 := t1.map (fun c => if c == '_' || c == '-' then ' ' else c)
  let ws := pyWords t2
  (List.intercalate [' '] (ws.map cleanWord)).take 60

/-- The pattern loop of `extract_task_name`: first matching pattern wins;
the description group is preferred over group 1 when the pattern has two
groups; a match whose used group is falsy falls through to the next pattern
(Python `continue`). -/
def tryPatterns : List (RE × Nat × Bool) → List Char → Option (List Char)
  | [], _ => none
  | (re, ng, anchored) :: rest, s =>
    match (if anchored then matchAnchored re s else searchFrom re s) with
    | none => tryPatterns rest s
    | some caps =>
      let g0 := caps.getD 0 none
      let g1 := caps.getD 1 none
      if ng ≥ 2 ∧ truthyGroup g1 = true then some (cleanTask (g1.getD []))
      else if truthyGroup g0 = true then some (cleanTask (g0.getD []))
      else tryPatterns rest s

/-- The fallback of `extract_task_name`: first three words title-cased, or
the first word capitalised, or the sentinel. -/
def fallbackTask (s : List Char) : List Char :=
  let ws := pyWords s
  if ws.length ≥ 3 then
    pyTitle (pyStripSet ".,!?:".data (List.intercalate [' '] (ws.take 3)))
  else
    match ws with
    | w :: _ => pyCapitalize w
    | [] => "General Work".data

/-- `extract_task_name` of `enhanced_tracker.py` for string input (the
`None`/non-string guards of the source collapse to the emptiness test for
actual strings). -/
def extract_task_name (msg : String) : String :=
  if (pyStrip msg.data).isEmpty then "Unknown Task"
  else
    match tryPatterns taskPatterns msg.data with
    | some t => ⟨t⟩
    | none => ⟨fallbackTask msg.data⟩

/-!
## Invariants used by the theorems
-/

/-- All timestamps stored in the state are coherent: the accumulator is
non-negative and an active span `(s, l)` satisfies `s ≤ l ≤ t` for the
current wall-clock lower bound `t`. -/
def GoodState (t : ℚ) (st : RepoState) : Prop :=
  0 ≤ st.accumulated ∧ ∀ s l, st.active = some (s, l) → s ≤ l ∧ l ≤ t

/-- No active span of `st` satisfies the idle-sweep firing condition at
time `now`. -/
def idleOk (now thresh : ℚ) (st : RepoState) : Prop :=
  ∀ s l, st.active = some (s, l) → ¬(s ≠ 0 ∧ now - l > thresh)

/-!
## Theorems
-/

/-- C4: the productivity scorer returns `0` when the duration is zero and
otherwise the sum of the three saturating components; for non-negative
inputs the result lies in `[0, 100]`, and on `(120, 3, 40)` it is exactly
`40/30 + 15 + 4 = 61/3 ≈ 20.33` (no further clamping). -/
theorem c4_score_bounds_and_sample :
    (∀ d f l : ℚ, 0 ≤ d → 0 ≤ f → 0 ≤ l →
      0 ≤ calculate_productivity_score d f l ∧ calculate_productivity_score d f l ≤ 100)
    ∧ calculate_productivity_score 120 3 40 = 61 / 3 := by
  constructor
  · intro d f l hd hf hl
    unfold calculate_productivity_score
    split
    · norm_num
    · have h1a : (0:ℚ) ≤ min (d / 3600) 1 := le_min (by positivity) (by norm_num)
      have h1b : min (d / 3600) 1 ≤ (1:ℚ) := min_le_right _ _
      have h2a : (0:ℚ) ≤ min (f * 5) 30 := le_min (by positivity) (by norm_num)
      have h2b : min (f * 5) 30 ≤ (30:ℚ) := min_le_right _ _
      have h3a : (0:ℚ) ≤ min (l / 10) 30 := le_min (by positivity) (by norm_num)
      have h3b : min (l / 10) 30 ≤ (30:ℚ) := min_le_right _ _
      constructor <;> nlinarith
  · norm_num [calculate_productivity_score, min_def]

/-- Witness for C4: the bound instantiated at the spec's sample input. -/
theorem c4_score_bounds_and_sample_witness :
    0 ≤ (120:ℚ) ∧ 0 ≤ (3:ℚ) ∧ 0 ≤ (40:ℚ) ∧
      (0 ≤ calculate_productivity_score 120 3 40 ∧ calculate_productivity_score 120 3 40 ≤ 100) :=
  ⟨by norm_num, by norm_num, by norm_num,
    c4_score_bounds_and_sample.1 120 3 40 (by norm_num) (by norm_num) (by norm_num)⟩

/-- C5: the first commit sweep that successfully observes a repository's
commit hash only records it into `last_commits` — no record is emitted and
no other per-repository state changes, whatever the rest of the state is. -/
theorem c5_first_observation (st : RepoState) (h msg : String) (stats : GitStats) (now : ℚ)
    (hfirst : st.lastCommit = none) :
    check_commits st (some h) msg stats now = ({ st with lastCommit := some h }, none) := by
  simp [check_commits, hfirst]

/-- Witness for C5 on a fresh repository state. -/
theorem c5_first_observation_witness :
    check_commits initRepo (some "abc123") "msg" ⟨1, 2, 3⟩ 7
      = ({ initRepo with lastCommit := some "abc123" }, none) :=
  c5_first_observation initRepo "abc123" "msg" ⟨1, 2, 3⟩ 7 rfl

/-- C1 (amended): when the commit sweep observes a hash different from the
recorded one, it folds a still-active span whose start timestamp is nonzero
(the source's `if start:` truthiness test skips a span starting exactly at
the epoch) and clears it; it emits exactly one record iff the post-fold
accumulator is positive, with `files_changed = max(|changedFiles|,
inspector.filesChanged)`; afterwards the accumulator is `0`, the file set is
empty in the emitting case, and `last_commits` holds the new hash
unconditionally. -/
theorem c1_commit_transition (st : RepoState) (old h msg : String) (stats : GitStats)
    (now : ℚ) (hlast : st.lastCommit = some old) (hne : h ≠ old)
    (hacc : 0 ≤ st.accumulated)
    (hspan : ∀ s l, st.active = some (s, l) → s ≤ l) :
    ((check_commits st (some h) msg stats now).2.isSome ↔ 0 < (foldActive st).accumulated)
    ∧ (∀ r, (check_commits st (some h) msg stats now).2 = some r →
        r.filesChanged = max (st.changedFiles.length : Int) stats.filesChanged)
    ∧ (check_commits st (some h) msg stats now).1.accumulated = 0
    ∧ ((check_commits st (some h) msg stats now).2.isSome = true →
        (check_commits st (some h) msg stats now).1.changedFiles = [])
    ∧ (check_commits st (some h) msg stats now).1.lastCommit = some h
    ∧ (truthyStart st.active = true → (check_commits st (some h) msg stats now).1.active = none) := by
  have hred : check_commits st (some h) msg stats now = handle_new_commit st h msg stats now := by
    simp [check_commits, hlast, hne]
  rw [hred]
  obtain ⟨act, acc, files, lc⟩ := st
  simp only at hacc
  cases act with
  | none =>
    by_cases hpos : 0 < acc
    · simp [handle_new_commit, foldActive, truthyStart, hpos]
    · have hz : acc = 0 := le_antisymm (not_lt.mp hpos) hacc
      subst hz
      simp [handle_new_commit, foldActive, truthyStart]
  | some p =>
    obtain ⟨s, l⟩ := p
    by_cases hs : s = 0
    · subst hs
      by_cases hpos : 0 < acc
      · simp [handle_new_commit, foldActive, truthyStart, hpos]
      · have hz : acc = 0 := le_antisymm (not_lt.mp hpos) hacc
        subst hz
        simp [handle_new_commit, foldActive, truthyStart]
    · have hsl : s ≤ l := hspan s l rfl
      by_cases hpos : 0 < acc + (l - s)
      · simp [handle_new_commit, foldActive, truthyStart, hs, hpos]
      · have hz : acc + (l - s) = 0 := le_antisymm (not_lt.mp hpos) (by linarith)
        simp [handle_new_commit, foldActive, truthyStart, hs, hpos, hz]

/-- Witness for C1 on a state with a folded span and a flush. -/
theorem c1_commit_transition_witness :
    ((check_commits ⟨some (2, 7), 3, ["x", "y"], some "h1"⟩ (some "h2") "m" ⟨4, 1, 9⟩ 100).2.isSome
        ↔ 0 < (foldActive ⟨some (2, 7), 3, ["x", "y"], some "h1"⟩).accumulated)
    ∧ (∀ r, (check_commits ⟨some (2, 7), 3, ["x", "y"], some "h1"⟩ (some "h2") "m" ⟨4, 1, 9⟩ 100).2
          = some r →
        r.filesChanged
          = max ((["x", "y"] : List String).length : Int) (⟨4, 1, 9⟩ : GitStats).filesChanged)
    ∧ (check_commits ⟨some (2, 7), 3, ["x", "y"], some "h1"⟩ (some "h2") "m" ⟨4, 1, 9⟩ 100).1.accumulated = 0
    ∧ ((check_commits ⟨some (2, 7), 3, ["x", "y"], some "h1"⟩ (some "h2") "m" ⟨4, 1, 9⟩ 100).2.isSome = true →
        (check_commits ⟨some (2, 7), 3, ["x", "y"], some "h1"⟩ (some "h2") "m" ⟨4, 1, 9⟩ 100).1.changedFiles = [])
    ∧ (check_commits ⟨some (2, 7), 3, ["x", "y"], some "h1"⟩ (some "h2") "m" ⟨4, 1, 9⟩ 100).1.lastCommit = some "h2"
    ∧ (truthyStart (some (2, 7)) = true →
        (check_commits ⟨some (2, 7), 3, ["x", "y"], some "h1"⟩ (some "h2") "m" ⟨4, 1, 9⟩ 100).1.active = none) :=
  c1_commit_transition ⟨some (2, 7), 3, ["x", "y"], some "h1"⟩ "h1" "h2" "m" ⟨4, 1, 9⟩ 100 rfl
    (by decide) (by norm_num)
    (by intro s l hsl; simp at hsl; obtain ⟨rfl, rfl⟩ := hsl; norm_num)

/-- Counterexample for C1 as frozen: a reachable state whose active span
starts at timestamp `0` (a change event at the epoch).  A different hash is
observed, yet the span is neither folded nor cleared — the truthiness test
`if start:` treats `0.0` as absent. -/
theorem c1_epoch_counterexample :
    (run 300 initRepo [.change "a" 0, .change "a" 5]).active = some (0, 5)
    ∧ (run 300 initRepo [.change "a" 0, .change "a" 5]).accumulated = 0
    ∧ (check_commits { run 300 initRepo [.change "a" 0, .change "a" 5] with lastCommit := some "h1" }
        (some "h2") "m" ⟨0, 0, 0⟩ 400).1.active = some (0, 5)
    ∧ (check_commits { run 300 initRepo [.change "a" 0, .change "a" 5] with lastCommit := some "h1" }
        (some "h2") "m" ⟨0, 0, 0⟩ 400).1.accumulated = 0 := by
  norm_num [run, step, tick, check_commits, check_idle_sessions, on_modified, initRepo,
    handle_new_commit, foldActive]
  decide

/-- C2 (amended): the idle sweep folds `lastActivity - activeStart` (not
`now - activeStart`) and clears the span whenever the span's start is
nonzero and `now - lastActivity` strictly exceeds the threshold; with
activity at `t = 1` and `t = 6` and a sweep at `t = 401` under threshold
`300`, the repository ends Accumulated with exactly `5` seconds banked.
(The frozen claim's instance at `t = 0` fails: see the counterexample.) -/
theorem c2_idle_sweep :
    (∀ (st : RepoState) (s l now thresh : ℚ), st.active = some (s, l) → s ≠ 0 →
        thresh < now - l →
        check_idle_sessions st now thresh
          = { st with accumulated := st.accumulated + (l - s), active := none })
    ∧ (run 300 initRepo
        [.change "a" 1, .change "a" 6, .sweep 401 none "" ⟨0, 0, 0⟩]).accumulated = 5
    ∧ (run 300 initRepo
        [.change "a" 1, .change "a" 6, .sweep 401 none "" ⟨0, 0, 0⟩]).active = none := by
  refine ⟨?_, ?_, ?_⟩
  · intro st s l now thresh hact hs hgt
    simp [check_idle_sessions, hact, hs, hgt]
  · norm_num [run, step, tick, check_commits, check_idle_sessions, on_modified, initRepo]
  · norm_num [run, step, tick, check_commits, check_idle_sessions, on_modified, initRepo]

/-- Witness for C2's universally quantified part at a concrete state. -/
theorem c2_idle_sweep_witness :
    check_idle_sessions ⟨some (2, 7), 1, ["x"], none⟩ 400 300
      = { (⟨some (2, 7), 1, ["x"], none⟩ : RepoState) with accumulated := 1 + (7 - 2), active := none } :=
  c2_idle_sweep.1 ⟨some (2, 7), 1, ["x"], none⟩ 2 7 400 300 rfl (by norm_num) (by norm_num)

/-- Counterexample for C2 as frozen: with activity at `t = 0` and `t = 5`
and a sweep at `t = 400` under threshold `300`, the code leaves the
repository Active with span `(0, 5)` and `0` seconds banked (not
Accumulated with `5`), because `if start:` is false for the float `0.0`. -/
theorem c2_epoch_counterexample :
    (run 300 initRepo
        [.change "a" 0, .change "a" 5, .sweep 400 none "" ⟨0, 0, 0⟩]).accumulated = 0
    ∧ (run 300 initRepo
        [.change "a" 0, .change "a" 5, .sweep 400 none "" ⟨0, 0, 0⟩]).active = some (0, 5) := by
  norm_num [run, step, tick, check_commits, check_idle_sessions, on_modified, initRepo]

/-- `on_modified` updates the file set the same way in both the
session-start and the session-extend branch. -/
theorem on_modified_changedFiles (st : RepoState) (p : String) (n : ℚ) :
    (on_modified st p n).changedFiles = st.changedFiles.insert p := by
  obtain ⟨act, acc, files, lc⟩ := st
  cases act with
  | none => rfl
  | some q => rfl

/-- Change notifications never reset the span start: from an active state,
after any list of notifications the start is unchanged and the last-activity
is the final notification's timestamp. -/
theorem runChanges_active_of_active (cs : List (String × ℚ)) :
    ∀ (st : RepoState) (s l : ℚ), st.active = some (s, l) →
      (runChanges st cs).active = some (s, (cs.map Prod.snd).getLastD l) := by
  induction cs with
  | nil => intro st s l h; simpa [runChanges] using h
  | cons c cs ih =>
    intro st s l h
    have h1 : (on_modified st c.1 c.2).active = some (s, c.2) := by
      simp [on_modified, h]
    have h2 : runChanges st (c :: cs) = runChanges (on_modified st c.1 c.2) cs := by
      simp [runChanges]
    rw [h2, ih _ s c.2 h1, List.map_cons, List.getLastD_cons]

/-- Membership in the file set after a list of change notifications. -/
theorem runChanges_mem (cs : List (String × ℚ)) :
    ∀ (st : RepoState) (p : String),
      p ∈ (runChanges st cs).changedFiles ↔ p ∈ st.changedFiles ∨ p ∈ cs.map Prod.fst := by
  induction cs with
  | nil => intro st p; simp [runChanges]
  | cons c cs ih =>
    intro st p
    have h2 : runChanges st (c :: cs) = runChanges (on_modified st c.1 c.2) cs := by
      simp [runChanges]
    rw [h2, ih]
    rw [on_modified_changedFiles]
    simp [List.mem_insert_iff]
    tauto

/-- The last timestamp of a nonempty call list via `getLastD`. -/
theorem getLastD_map_snd (cs : List (String × ℚ)) :
    ∀ c : String × ℚ, (cs.map Prod.snd).getLastD c.2 = ((c :: cs).getLast (by simp)).2 := by
  induction cs with
  | nil => intro c; simp
  | cons d ds ih =>
    intro c
    rw [List.map_cons, List.getLastD_cons, ih d]
    have hl : (c :: d :: ds).getLast (by simp) = (d :: ds).getLast (by simp) :=
      List.getLast_cons (by simp)
    rw [hl]

/-- C3: a nonempty sequence of successful change notifications on one
repository with strictly increasing timestamps and no intervening sweep
leaves the repository Active with `activeStart` the first call's timestamp,
`lastActivity` the last call's timestamp, and `changedFiles` exactly the set
of distinct paths passed. -/
theorem c3_change_sequence (calls : List (String × ℚ)) (hne : calls ≠ [])
    (hinc : List.Pairwise (fun a b : String × ℚ => a.2 < b.2) calls) :
    (runChanges initRepo calls).active
        = some ((calls.head hne).2, (calls.getLast hne).2)
    ∧ (∀ p, p ∈ (runChanges initRepo calls).changedFiles ↔ p ∈ calls.map Prod.fst) := by
  cases calls with
  | nil => exact absurd rfl hne
  | cons c cs =>
    have h1 : (on_modified initRepo c.1 c.2).active = some (c.2, c.2) := by
      simp [on_modified, initRepo]
    have h2 : runChanges initRepo (c :: cs) = runChanges (on_modified initRepo c.1 c.2) cs := by
      simp [runChanges]
    constructor
    · rw [h2, runChanges_active_of_active cs _ c.2 c.2 h1]
      rw [getLastD_map_snd cs c]
      simp
    · intro p
      rw [runChanges_mem (c :: cs) initRepo p]
      simp [initRepo]

/-- Witness for C3 on a three-call sequence with a repeated path. -/
theorem c3_change_sequence_witness :
    ((runChanges initRepo [("a", 3), ("b", 5), ("a", 9)]).active
        = some (((("a", 3) : String × ℚ)).2, ((("a", 9) : String × ℚ)).2))
    ∧ (∀ p, p ∈ (runChanges initRepo [("a", 3), ("b", 5), ("a", 9)]).changedFiles
        ↔ p ∈ ([("a", 3), ("b", 5), ("a", 9)] : List (String × ℚ)).map Prod.fst) :=
  c3_change_sequence [("a", 3), ("b", 5), ("a", 9)] (by simp)
    (by norm_num)

/-- A state in which no span can fire the idle test is left unchanged by
the idle sweep. -/
theorem check_idle_of_idleOk {now thresh : ℚ} {st : RepoState} (h : idleOk now thresh st) :
    check_idle_sessions st now thresh = st := by
  obtain ⟨act, acc, files, lc⟩ := st
  cases act with
  | none => rfl
  | some q =>
    obtain ⟨s, l⟩ := q
    simp only [check_idle_sessions]
    rw [if_neg (h s l rfl)]

/-- After the idle sweep, no span can fire the idle test at the same
instant again. -/
theorem idleOk_check_idle (st : RepoState) (now thresh : ℚ) :
    idleOk now thresh (check_idle_sessions st now thresh) := by
  obtain ⟨act, acc, files, lc⟩ := st
  cases act with
  | none => intro s l h; simp [check_idle_sessions] at h
  | some q =>
    obtain ⟨s0, l0⟩ := q
    by_cases hc : s0 ≠ 0 ∧ now - l0 > thresh
    · intro s l h
      simp [check_idle_sessions, hc] at h
    · intro s l h
      simp [check_idle_sessions, hc] at h
      obtain ⟨rfl, rfl⟩ := h
      exact hc

/-- The commit-flush fold leaves either no span or a span whose start is
zero, so the idle test can never fire on its result. -/
theorem idleOk_foldActive (st : RepoState) (now thresh : ℚ) :
    idleOk now thresh (foldActive st) := by
  obtain ⟨act, acc, files, lc⟩ := st
  cases act with
  | none => intro s l h; simp [foldActive] at h
  | some q =>
    obtain ⟨s0, l0⟩ := q
    by_cases hs : s0 = 0
    · intro s l h
      simp [foldActive, hs] at h
      obtain ⟨rfl, rfl⟩ := h
      rintro ⟨h1, _⟩
      exact h1 rfl
    · intro s l h
      simp [foldActive, hs] at h

/-- The flush handler never creates an active span: its result's span is
the folded state's span. -/
theorem handle_new_commit_active (st : RepoState) (hh msg : String) (stats : GitStats) (now : ℚ) :
    (handle_new_commit st hh msg stats now).1.active = (foldActive st).active := by
  simp only [handle_new_commit]
  by_cases hpos : (foldActive st).accumulated > 0 <;> simp [hpos]

/-- The flush handler records the new hash in both branches. -/
theorem handle_new_commit_lastCommit (st : RepoState) (hh msg : String) (stats : GitStats) (now : ℚ) :
    (handle_new_commit st hh msg stats now).1.lastCommit = some hh := by
  simp only [handle_new_commit]
  by_cases hpos : (foldActive st).accumulated > 0 <;> simp [hpos]

/-- After a commit sweep that observed hash `hh`, the state records `hh`. -/
theorem check_commits_lastCommit (st : RepoState) (hh msg : String) (stats : GitStats) (now : ℚ) :
    (check_commits st (some hh) msg stats now).1.lastCommit = some hh := by
  cases hlc : st.lastCommit with
  | none => simp [check_commits, hlc]
  | some old =>
    by_cases he : hh = old
    · simp [check_commits, hlc, he]
    · simp [check_commits, hlc, he, handle_new_commit_lastCommit]

/-- The commit sweep preserves `idleOk` (it can only clear spans or leave a
zero-start span behind). -/
theorem idleOk_check_commits {now thresh : ℚ} {st : RepoState} (h : idleOk now thresh st)
    (observed : Option String) (msg : String) (stats : GitStats) (now' : ℚ) :
    idleOk now thresh (check_commits st observed msg stats now').1 := by
  cases observed with
  | none => simpa [check_commits] using h
  | some hh =>
    cases hlc : st.lastCommit with
    | none =>
      simp only [check_commits, hlc]
      intro s l hal
      exact h s l hal
    | some old =>
      by_cases he : hh = old
      · simpa [check_commits, hlc, he] using h
      · simp only [check_commits, hlc]
        rw [if_neg he]
        intro s l hal
        rw [handle_new_commit_active] at hal
        exact idleOk_foldActive st now thresh s l hal

/-- C6: `tick` is idempotent under a quiescent interval — a second sweep at
the same instant, with the inspector reporting the same hash (or failing
both times), emits no record and leaves every field of the state, in
particular `accumulated_time`, unchanged. -/
theorem c6_tick_idempotent (st : RepoState) (now thresh : ℚ) (observed : Option String)
    (msg : String) (stats : GitStats) :
    (tick (tick st now thresh observed msg stats).1 now thresh observed msg stats).2 = none
    ∧ (tick (tick st now thresh observed msg stats).1 now thresh observed msg stats).1.accumulated
        = (tick st now thresh observed msg stats).1.accumulated := by
  have hok : idleOk now thresh (tick st now thresh observed msg stats).1 := by
    simp only [tick]
    exact idleOk_check_commits (idleOk_check_idle st now thresh) observed msg stats now
  have hid : check_idle_sessions (tick st now thresh observed msg stats).1 now thresh
      = (tick st now thresh observed msg stats).1 := check_idle_of_idleOk hok
  have hmain : tick (tick st now thresh observed msg stats).1 now thresh observed msg stats
      = ((tick st now thresh observed msg stats).1, none) := by
    conv_lhs => rw [tick]
    rw [hid]
    cases observed with
    | none => rfl
    | some hh =>
      have hlc : (tick st now thresh (some hh) msg stats).1.lastCommit = some hh := by
        simp only [tick]
        exact check_commits_lastCommit _ hh msg stats now
      simp [check_commits, hlc]
  exact ⟨by rw [hmain], by rw [hmain]⟩

/-- `on_modified` preserves the timestamp-coherence invariant when the
event is not in the past. -/
theorem goodState_on_modified {t n : ℚ} {st : RepoState} (hg : GoodState t st) (htn : t ≤ n)
    (p : String) : GoodState n (on_modified st p n) := by
  obtain ⟨hacc, hact⟩ := hg
  obtain ⟨act, acc, files, lc⟩ := st
  cases act with
  | none =>
    refine ⟨hacc, ?_⟩
    intro s l h
    simp [on_modified] at h
    obtain ⟨rfl, rfl⟩ := h
    exact ⟨le_refl n, le_refl n⟩
  | some q =>
    obtain ⟨s0, l0⟩ := q
    obtain ⟨h1, h2⟩ := hact s0 l0 rfl
    refine ⟨hacc, ?_⟩
    intro s l h
    simp [on_modified] at h
    obtain ⟨rfl, rfl⟩ := h
    exact ⟨le_trans h1 (le_trans h2 htn), le_refl n⟩

/-- The idle sweep preserves the invariant: the folded duration
`lastActivity - activeStart` is non-negative. -/
theorem goodState_check_idle {t now thresh : ℚ} {st : RepoState} (hg : GoodState t st)
    (hn : t ≤ now) : GoodState now (check_idle_sessions st now thresh) := by
  obtain ⟨hacc, hact⟩ := hg
  obtain ⟨act, acc, files, lc⟩ := st
  cases act with
  | none =>
    refine ⟨hacc, ?_⟩
    intro s l h
    simp [check_idle_sessions] at h
  | some q =>
    obtain ⟨s0, l0⟩ := q
    obtain ⟨h1, h2⟩ := hact s0 l0 rfl
    by_cases hc : s0 ≠ 0 ∧ now - l0 > thresh
    · refine ⟨?_, ?_⟩
      · have hnn : 0 ≤ acc + (l0 - s0) := by
          simp only at hacc
          linarith
        simpa [check_idle_sessions, hc] using hnn
      · intro s l h
        simp [check_idle_sessions, hc] at h
    · have heq : check_idle_sessions ⟨some (s0, l0), acc, files, lc⟩ now thresh
          = ⟨some (s0, l0), acc, files, lc⟩ := by
        simp only [check_idle_sessions]
        rw [if_neg hc]
      rw [heq]
      refine ⟨hacc, ?_⟩
      intro s l h
      simp at h
      obtain ⟨rfl, rfl⟩ := h
      exact ⟨h1, le_trans h2 hn⟩

/-- The flush fold preserves the invariant. -/
theorem goodState_foldActive {t : ℚ} {st : RepoState} (hg : GoodState t st) :
    GoodState t (foldActive st) := by
  obtain ⟨hacc, hact⟩ := hg
  obtain ⟨act, acc, files, lc⟩ := st
  cases act with
  | none => exact ⟨hacc, hact⟩
  | some q =>
    obtain ⟨s0, l0⟩ := q
    obtain ⟨h1, h2⟩ := hact s0 l0 rfl
    by_cases hs : s0 ≠ 0
    · refine ⟨?_, ?_⟩
      · have hnn : 0 ≤ acc + (l0 - s0) := by
          simp only at hacc
          linarith
        simpa [foldActive, hs] using hnn
      · intro s l h
        simp [foldActive, hs] at h
    · have heq : foldActive ⟨some (s0, l0), acc, files, lc⟩
          = ⟨some (s0, l0), acc, files, lc⟩ := by
        simp only [foldActive]
        rw [if_neg hs]
      rw [heq]
      exact ⟨hacc, hact⟩

/-- The flush handler preserves the invariant (the emitting branch resets
the accumulator to zero). -/
theorem goodState_handle_new_commit {t : ℚ} {st : RepoState} (hg : GoodState t st)
    (hh msg : String) (stats : GitStats) (now : ℚ) :
    GoodState t (handle_new_commit st hh msg stats now).1 := by
  have hf := goodState_foldActive hg
  obtain ⟨hacc, hact⟩ := hf
  simp only [handle_new_commit]
  by_cases hpos : (foldActive st).accumulated > 0 <;> simp only [hpos, if_true, if_false]
  · exact ⟨le_refl 0, fun s l h => hact s l h⟩
  · exact ⟨hacc, hact⟩

/-- The commit sweep preserves the invariant. -/
theorem goodState_check_commits {t : ℚ} {st : RepoState} (hg : GoodState t st)
    (observed : Option String) (msg : String) (stats : GitStats) (now : ℚ) :
    GoodState t (check_commits st observed msg stats now).1 := by
  cases observed with
  | none => simpa [check_commits] using hg
  | some hh =>
    cases hlc : st.lastCommit with
    | none =>
      simp only [check_commits, hlc]
      exact ⟨hg.1, hg.2⟩
    | some old =>
      by_cases he : hh = old
      · simpa [check_commits, hlc, he] using hg
      · simp only [check_commits, hlc]
        rw [if_neg he]
        exact goodState_handle_new_commit hg hh msg stats now

/-- One event preserves the invariant, advancing the clock bound to the
event's time. -/
theorem goodState_step {t : ℚ} {st : RepoState} (hg : GoodState t st) (thresh : ℚ) (e : Event)
    (he : t ≤ eventTime e) : GoodState (eventTime e) (step thresh st e) := by
  cases e with
  | change p n => exact goodState_on_modified hg he p
  | sweep n observed msg stats =>
    simp only [step, tick]
    exact goodState_check_commits (goodState_check_idle hg he) observed msg stats n

/-- Any chronological run from a good state ends in a good state. -/
theorem goodState_run (es : List Event) :
    ∀ (t : ℚ) (st : RepoState), GoodState t st → chronB t es = true → ∀ thresh : ℚ,
      ∃ t', GoodState t' (run thresh st es) := by
  induction es with
  | nil =>
    intro t st hg _ thresh
    exact ⟨t, by simpa [run] using hg⟩
  | cons e es ih =>
    intro t st hg hc thresh
    simp only [chronB, Bool.and_eq_true, decide_eq_true_eq] at hc
    obtain ⟨h1, h2⟩ := hc
    have hg' := goodState_step hg thresh e h1
    have hr : run thresh st (e :: es) = run thresh (step thresh st e) es := by
      simp [run]
    rw [hr]
    exact ih (eventTime e) _ hg' h2 thresh

/-- C7 (amended): in every reachable per-repository state the accumulator
is non-negative, so the repository is in at least one of the three spec
conditions — actively timed, holding positive accumulated time with no
span, or quiescent.  The conditions are however not mutually exclusive:
see the counterexample, where a span and a positive accumulator coexist. -/
theorem c7_trichotomy (thresh t0 : ℚ) (es : List Event) (hc : chronB t0 es = true) :
    (run thresh initRepo es).active.isSome = true
    ∨ ((run thresh initRepo es).active = none ∧ 0 < (run thresh initRepo es).accumulated)
    ∨ ((run thresh initRepo es).active = none ∧ (run thresh initRepo es).accumulated = 0) := by
  have hg0 : GoodState t0 initRepo := by
    refine ⟨le_refl 0, ?_⟩
    intro s l h
    simp [initRepo] at h
  obtain ⟨t', hg⟩ := goodState_run es t0 initRepo hg0 hc thresh
  cases hact : (run thresh initRepo es).active with
  | some q => left; simp [hact]
  | none =>
    rcases lt_or_eq_of_le hg.1 with hlt | heq
    · right; left; exact ⟨rfl, hlt⟩
    · right; right; exact ⟨rfl, heq.symm⟩

/-- Witness for C7 on a one-event chronological trace. -/
theorem c7_trichotomy_witness :
    chronB 0 [Event.change "a" 10] = true
    ∧ ((run 300 initRepo [Event.change "a" 10]).active.isSome = true
      ∨ ((run 300 initRepo [Event.change "a" 10]).active = none
          ∧ 0 < (run 300 initRepo [Event.change "a" 10]).accumulated)
      ∨ ((run 300 initRepo [Event.change "a" 10]).active = none
          ∧ (run 300 initRepo [Event.change "a" 10]).accumulated = 0)) :=
  ⟨by decide, c7_trichotomy 300 0 [Event.change "a" 10] (by decide)⟩

/-- Counterexample for C7 as frozen: after activity at `t = 10` and
`t = 20`, an idle sweep at `t = 400` (banking 10 seconds) and fresh
activity at `t = 500`, the repository is actively timed and holds a
positive accumulator simultaneously — the three conditions are not
mutually exclusive. -/
theorem c7_coexistence_counterexample :
    chronB 0 [Event.change "a" 10, Event.change "a" 20,
        Event.sweep 400 none "" ⟨0, 0, 0⟩, Event.change "a" 500] = true
    ∧ (run 300 initRepo [Event.change "a" 10, Event.change "a" 20,
        Event.sweep 400 none "" ⟨0, 0, 0⟩, Event.change "a" 500]).active = some (500, 500)
    ∧ 0 < (run 300 initRepo [Event.change "a" 10, Event.change "a" 20,
        Event.sweep 400 none "" ⟨0, 0, 0⟩, Event.change "a" 500]).accumulated := by
  norm_num [chronB, eventTime, run, step, tick, check_commits, check_idle_sessions,
    on_modified, initRepo]

/-- C8: the task-name extractor is a deterministic pure function that
applies its pattern rules in the fixed order `pat1 … pat5` and satisfies
the three specified examples: the conventional-commit prefix example, the
issue-tracker prefix example, and the empty-string sentinel. -/
theorem c8_task_extraction :
    extract_task_name "feat: Add user authentication system" = "Add User Authentication System"
    ∧ extract_task_name "PROJ-123: Implement payment gateway" = "Implement Payment Gateway"
    ∧ extract_task_name "" = "Unknown Task" :=
  ⟨by decide, by decide, by decide⟩

/-- The commit-flush fold never touches the `changedFiles` set. -/
theorem foldActive_changedFiles (st : RepoState) :
    (foldActive st).changedFiles = st.changedFiles := by
  obtain ⟨act, acc, files, lc⟩ := st
  cases act with
  | none => rfl
  | some q =>
    obtain ⟨s0, l0⟩ := q
    by_cases hs : s0 ≠ 0 <;> simp [foldActive, hs]

/-- Folding can only increase the accumulator when spans are well-ordered,
so a positive accumulator stays positive. -/
theorem foldActive_accumulated_pos {st : RepoState} (hacc : 0 < st.accumulated)
    (hspan : ∀ s l, st.active = some (s, l) → s ≤ l) :
    0 < (foldActive st).accumulated := by
  obtain ⟨act, acc, files, lc⟩ := st
  simp only at hacc
  cases act with
  | none => simpa [foldActive] using hacc
  | some q =>
    obtain ⟨s0, l0⟩ := q
    have h1 : s0 ≤ l0 := hspan s0 l0 rfl
    by_cases hs : s0 ≠ 0
    · have heq : (foldActive ⟨some (s0, l0), acc, files, lc⟩).accumulated = acc + (l0 - s0) := by
        simp [foldActive, hs]
      rw [heq]
      linarith
    · have heq : foldActive ⟨some (s0, l0), acc, files, lc⟩
          = ⟨some (s0, l0), acc, files, lc⟩ := by
        simp only [foldActive]
        rw [if_neg hs]
      rw [heq]
      exact hacc

/-- C10: when both diff-stat invocations fail (and likewise when they
return unparseable output), the stats helper returns `(0, 0, 0)`; a commit
flush with a positive accumulator still emits a record — with zero line
counts and `files_changed = |changedFiles|` — and resets the accumulator
instead of skipping the cycle. -/
theorem c10_stats_failure_still_flushes (st : RepoState) (hh msg : String) (now : ℚ)
    (hacc : 0 < st.accumulated)
    (hspan : ∀ s l, st.active = some (s, l) → s ≤ l) :
    get_git_stats none none = (⟨0, 0, 0⟩ : GitStats)
    ∧ get_git_stats (some "warning: LF will be replaced by CRLF") (some "") = (⟨0, 0, 0⟩ : GitStats)
    ∧ ∃ r, (handle_new_commit st hh msg (get_git_stats none none) now).2 = some r
        ∧ r.linesAdded = 0 ∧ r.linesDeleted = 0
        ∧ r.filesChanged = (st.changedFiles.length : Int)
        ∧ (handle_new_commit st hh msg (get_git_stats none none) now).1.accumulated = 0 := by
  have hpos : 0 < (foldActive st).accumulated := foldActive_accumulated_pos hacc hspan
  refine ⟨rfl, by decide, ?_⟩
  simp only [handle_new_commit]
  rw [if_pos hpos]
  refine ⟨_, rfl, rfl, rfl, ?_, rfl⟩
  rw [foldActive_changedFiles]
  exact max_eq_left (Int.natCast_nonneg _)

/-- Witness for C10 on a state with two changed files and a two-minute
accumulator. -/
theorem c10_stats_failure_still_flushes_witness :
    get_git_stats none none = (⟨0, 0, 0⟩ : GitStats)
    ∧ get_git_stats (some "warning: LF will be replaced by CRLF") (some "") = (⟨0, 0, 0⟩ : GitStats)
    ∧ ∃ r, (handle_new_commit ⟨none, 120, ["a", "b"], some "h0"⟩ "h1" "m"
          (get_git_stats none none) 500).2 = some r
        ∧ r.linesAdded = 0 ∧ r.linesDeleted = 0
        ∧ r.filesChanged = ((["a", "b"] : List String).length : Int)
        ∧ (handle_new_commit ⟨none, 120, ["a", "b"], some "h0"⟩ "h1" "m"
            (get_git_stats none none) 500).1.accumulated = 0 :=
  c10_stats_failure_still_flushes ⟨none, 120, ["a", "b"], some "h0"⟩ "h1" "m" 500
    (by norm_num) (by intro s l h; simp at h)

end ActivityMonitor
